import Mathlib

set_option maxRecDepth 8000

/-!
Shallow embedding of `apps/perms/models/asset_permission.py` (jumpserver):
the `AssetPermissionQuerySet` bulk filters (`active`, `valid`, `inactive`,
`invalid`, `filter_by_accounts`) and the `AssetPermission` resolution methods
(`is_expired`, `is_valid`, `get_all_users`, `get_all_assets`,
`get_all_accounts`).

Timestamps are modelled as `Int`; entity ids as `Nat`; node keys, account
names and usernames as `String`.  The external collaborators (user store,
node-closure store, asset store, account store) are explicit parameters, as
the spec prescribes for this core.
-/

namespace JumpServer

/-! ### Kernel-computable lexicographic order on strings

`order_by` on string columns compares character sequences; we embed this as a
Boolean lexicographic comparison on `String.data`, which the kernel can
evaluate on concrete inputs. -/

/-- Lexicographic strict order on character lists. -/
def charListLt : List Char → List Char → Bool
  | [], [] => false
  | [], _ :: _ => true
  | _ :: _, [] => false
  | a :: as, b :: bs => a < b || (a = b && charListLt as bs)

/-- Lexicographic strict order on strings. -/
def strLt (s t : String) : Bool := charListLt s.data t.data

/-- Lexicographic reflexive order on strings. -/
def strLe (s t : String) : Bool := strLt s t || s = t

theorem charListLt_trans {as bs cs : List Char} (h1 : charListLt as bs = true)
    (h2 : charListLt bs cs = true) : charListLt as cs = true := by
  induction as generalizing bs cs with
  | nil =>
    cases cs with
    | nil => cases bs <;> simp_all [charListLt]
    | cons c cs => simp [charListLt]
  | cons a as ih =>
    cases bs with
    | nil => simp [charListLt] at h1
    | cons b bs =>
      cases cs with
      | nil => simp [charListLt] at h2
      | cons c cs =>
        simp only [charListLt, Bool.or_eq_true, Bool.and_eq_true,
          decide_eq_true_eq] at h1 h2 ⊢
        rcases h1 with h1 | ⟨rfl, h1⟩
        · rcases h2 with h2 | ⟨rfl, h2⟩
          · exact Or.inl (lt_trans h1 h2)
          · exact Or.inl h1
        · rcases h2 with h2 | ⟨rfl, h2⟩
          · exact Or.inl h2
          · exact Or.inr ⟨rfl, ih h1 h2⟩

theorem charListLt_total (as bs : List Char) :
    charListLt as bs = true ∨ as = bs ∨ charListLt bs as = true := by
  induction as generalizing bs with
  | nil => cases bs <;> simp [charListLt]
  | cons a as ih =>
    cases bs with
    | nil => simp [charListLt]
    | cons b bs =>
      rcases lt_trichotomy a b with h | rfl | h
      · exact Or.inl (by simp [charListLt, h])
      · rcases ih bs with h | rfl | h
        · exact Or.inl (by simp [charListLt, h])
        · exact Or.inr (Or.inl rfl)
        · exact Or.inr (Or.inr (by simp [charListLt, h]))
      · exact Or.inr (Or.inr (by simp [charListLt, h]))

theorem strLt_trans {s t u : String} (h1 : strLt s t = true)
    (h2 : strLt t u = true) : strLt s u = true :=
  charListLt_trans h1 h2

theorem strLt_or_eq_or_gt (s t : String) :
    strLt s t = true ∨ s = t ∨ strLt t s = true := by
  rcases charListLt_total s.data t.data with h | h | h
  · exact Or.inl h
  · refine Or.inr (Or.inl ?_)
    cases s with
    | mk ds =>
      cases t with
      | mk dt => exact congrArg String.mk (by simpa using h)
  · exact Or.inr (Or.inr h)

/-! ### The data model

Fields are those of the Django models actually read by the embedded methods.
-/

/-- `assets.models.Asset`: opaque identity plus a name (used by
`order_by('asset__name', ...)`). -/
structure Asset where
  id : Nat
  name : String
deriving DecidableEq

/-- `assets.models.Account`: belongs to one asset, has a name and a
username. -/
structure Account where
  id : Nat
  asset_id : Nat
  name : String
  username : String
deriving DecidableEq

/-- `users.models.User`: opaque identity plus its group memberships
(the many-to-many `groups` relation read by `filter(groups__id__in=...)`). -/
structure User where
  id : Nat
  groups : List Nat
deriving DecidableEq

/-- `perms.models.AssetPermission`: the fields read by the embedded methods
(`users`, `user_groups`, `assets`, `nodes` hold referenced ids / node keys;
`accounts` is the JSON list of account names). -/
structure AssetPermission where
  name : String
  users : List Nat
  user_groups : List Nat
  assets : List Nat
  nodes : List String
  accounts : List String
  date_start : Int
  date_expired : Int
  is_active : Bool
deriving DecidableEq

/-- Modelled from the spec: `Account.AliasAccount.ALL` (defined in the assets
app, outside the provided source) is the wildcard account alias, a string
constant meaning "every account on the asset is authorized". -/
def AliasAccountALL : String := "@ALL"

/-! ### Ordering key used by `order_by('asset__name', 'name', 'username')` -/

/-- The join `account.asset.name`: name of the asset a row points at (the
empty string for a dangling reference, which a foreign-key constraint rules
out in the real database). -/
def asset_name (assetsDb : List Asset) (i : Nat) : String :=
  match assetsDb.find? (fun a => a.id == i) with
  | some a => a.name
  | none => ""

/-- The `(asset.name, account.name, account.username)` sort key. -/
def account_key (assetsDb : List Asset) (a : Account) :
    String × String × String :=
  (asset_name assetsDb a.asset_id, a.name, a.username)

/-- Lexicographic order on sort keys. -/
def tripleLe (p q : String × String × String) : Bool :=
  strLt p.1 q.1 ||
    (p.1 = q.1 && (strLt p.2.1 q.2.1 ||
      (p.2.1 = q.2.1 && strLe p.2.2 q.2.2)))

/-- The row order produced by `order_by('asset__name', 'name', 'username')`. -/
def account_le (assetsDb : List Asset) (a b : Account) : Prop :=
  tripleLe (account_key assetsDb a) (account_key assetsDb b) = true

theorem tripleLe_total (p q : String × String × String) :
    tripleLe p q = true ∨ tripleLe q p = true := by
  rcases strLt_or_eq_or_gt p.1 q.1 with h | h | h
  · exact Or.inl (by simp [tripleLe, h])
  · rcases strLt_or_eq_or_gt p.2.1 q.2.1 with h2 | h2 | h2
    · exact Or.inl (by simp [tripleLe, h, h2])
    · rcases strLt_or_eq_or_gt p.2.2 q.2.2 with h3 | h3 | h3
      · exact Or.inl (by simp [tripleLe, strLe, h, h2, h3])
      · exact Or.inl (by simp [tripleLe, strLe, h, h2, h3])
      · exact Or.inr (by simp [tripleLe, strLe, h, h2, h3])
    · exact Or.inr (by simp [tripleLe, h, h2])
  · exact Or.inr (by simp [tripleLe, h])

theorem tripleLe_trans {p q r : String × String × String}
    (h1 : tripleLe p q = true) (h2 : tripleLe q r = true) :
    tripleLe p r = true := by
  simp only [tripleLe, strLe, Bool.or_eq_true, Bool.and_eq_true,
    decide_eq_true_eq] at h1 h2 ⊢
  rcases h1 with h1 | ⟨e1, h1⟩
  · rcases h2 with h2 | ⟨e2, h2⟩
    · exact Or.inl (strLt_trans h1 h2)
    · exact Or.inl (e2 ▸ h1)
  · rcases h2 with h2 | ⟨e2, h2⟩
    · exact Or.inl (e1 ▸ h2)
    · refine Or.inr ⟨e1.trans e2, ?_⟩
      rcases h1 with h1 | ⟨f1, h1⟩
      · rcases h2 with h2 | ⟨f2, h2⟩
        · exact Or.inl (strLt_trans h1 h2)
        · exact Or.inl (f2 ▸ h1)
      · rcases h2 with h2 | ⟨f2, h2⟩
        · exact Or.inl (f1 ▸ h2)
        · refine Or.inr ⟨f1.trans f2, ?_⟩
          rcases h1 with h1 | h1
          · rcases h2 with h2 | h2
            · exact Or.inl (strLt_trans h1 h2)
            · exact Or.inl (h2 ▸ h1)
          · rcases h2 with h2 | h2
            · exact Or.inl (h1 ▸ h2)
            · exact Or.inr (h1.trans h2)

instance (assetsDb : List Asset) : DecidableRel (account_le assetsDb) :=
  fun _ _ => inferInstanceAs (Decidable (_ = true))

instance (assetsDb : List Asset) : IsTotal Account (account_le assetsDb) :=
  ⟨fun _ _ => tripleLe_total _ _⟩

instance (assetsDb : List Asset) : IsTrans Account (account_le assetsDb) :=
  ⟨fun _ _ _ h1 h2 => tripleLe_trans h1 h2⟩

/-! ### `AssetPermissionQuerySet` bulk filters

A queryset over `AssetPermission` is a list of grants; each method is a
filter.  `valid` calls `timezone.now()` twice (once per chained `filter`),
so it takes the ambient clock as a function of the read index, exactly as the
source reads it; `invalid` captures `now = timezone.now()` once, so it takes
a single instant. -/

/-- `AssetPermissionQuerySet.active`: `filter(is_active=True)`. -/
def active (qs : List AssetPermission) : List AssetPermission :=
  qs.filter (fun g => g.is_active)

/-- `AssetPermissionQuerySet.valid`:
`active().filter(date_start__lt=timezone.now()).filter(date_expired__gt=timezone.now())`;
`clock i` is the value returned by the `i`-th `timezone.now()` call. -/
def valid (qs : List AssetPermission) (clock : Nat → Int) :
    List AssetPermission :=
  ((active qs).filter (fun g => decide (g.date_start < clock 0))).filter
    (fun g => decide (g.date_expired > clock 1))

/-- `valid` evaluated with a frozen clock: both `timezone.now()` reads return
the same instant `now`. -/
def validAt (qs : List AssetPermission) (now : Int) : List AssetPermission :=
  valid qs (fun _ => now)

/-- `AssetPermissionQuerySet.inactive`: `filter(is_active=False)`. -/
def inactive (qs : List AssetPermission) : List AssetPermission :=
  qs.filter (fun g => !g.is_active)

/-- `AssetPermissionQuerySet.invalid`: captures `now = timezone.now()` once,
then `filter(Q(is_active=False) | Q(date_start__gt=now) | Q(date_expired__lt=now))`. -/
def invalid (qs : List AssetPermission) (now : Int) : List AssetPermission :=
  qs.filter (fun g =>
    !g.is_active || decide (g.date_start > now) || decide (g.date_expired < now))

/-- `AssetPermissionQuerySet.filter_by_accounts`:
`filter(Q(accounts__contains=list(accounts)) | Q(accounts__contains=ALL))` —
JSON-array containment keeps a grant when its `accounts` list contains every
requested name, or contains the wildcard alias. -/
def filter_by_accounts (qs : List AssetPermission) (accounts : List String) :
    List AssetPermission :=
  qs.filter (fun g =>
    accounts.all (fun s => decide (s ∈ g.accounts)) ||
      decide (AliasAccountALL ∈ g.accounts))

/-! ### `AssetPermission` instance methods -/

/-- `AssetPermission.is_expired`: `False` iff
`date_expired > timezone.now() > date_start` (the chained comparison reads the
clock once; `now` is that single read). -/
def is_expired (g : AssetPermission) (now : Int) : Bool :=
  if g.date_expired > now ∧ now > g.date_start then false else true

/-- `AssetPermission.is_valid`: `True` iff `not is_expired and is_active`. -/
def is_valid (g : AssetPermission) (now : Int) : Bool :=
  if is_expired g now = false ∧ g.is_active = true then true else false

/-- Modelled from the spec: `UnionQuerySet(qs1, qs2)` (defined in
`common.db.models`, outside the provided source) behaves as the set union of
the two querysets — every member of either, a user referenced both directly
and through a group appearing once. -/
def UnionQuerySet (qs1 qs2 : List User) : List User :=
  (qs1 ++ qs2).dedup

/-- `AssetPermission.get_all_users`: direct members (`id__in=user_ids`,
distinct) unioned with group members (`groups__id__in=group_ids`, one joined
row per matching group, then distinct).  `usersDb` is the user store. -/
def get_all_users (usersDb : List User) (g : AssetPermission) : List User :=
  let user_ids := g.users
  let group_ids := g.user_groups
  let qs1 := (usersDb.filter (fun u => decide (u.id ∈ user_ids))).dedup
  let qs2 := (usersDb.flatMap (fun u =>
    (u.groups.filter (fun gr => decide (gr ∈ group_ids))).map (fun _ => u))).dedup
  UnionQuerySet qs1 qs2

/-- Modelled from the spec: `Node.get_nodes_all_asset_ids_by_keys` (defined in
the assets app, outside the provided source) returns the set of asset ids
transitively reachable under any of the given node keys; `nodeAssets` is the
per-key transitive closure held by the node store. -/
def get_nodes_all_asset_ids_by_keys (nodeAssets : String → List Nat)
    (keys : List String) : Finset Nat :=
  (keys.flatMap nodeAssets).toFinset

/-- `AssetPermission.get_all_assets(flat=True)`: the set of directly
referenced asset ids updated with the node-derived ids. -/
def get_all_assets_flat (nodeAssets : String → List Nat)
    (g : AssetPermission) : Finset Nat :=
  let asset_ids := g.assets.toFinset
  let nodes_asset_ids := get_nodes_all_asset_ids_by_keys nodeAssets g.nodes
  asset_ids ∪ nodes_asset_ids

/-- `AssetPermission.get_all_assets(flat=False)`:
`Asset.objects.filter(id__in=asset_ids)`. -/
def get_all_assets (nodeAssets : String → List Nat) (assetsDb : List Asset)
    (g : AssetPermission) : List Asset :=
  assetsDb.filter (fun a => decide (a.id ∈ get_all_assets_flat nodeAssets g))

/-- `AssetPermission.get_all_accounts(flat=False)`:
`q = Q(asset_id__in=asset_ids)`, strengthened with
`Q(username__in=self.accounts)` unless the wildcard alias occurs in
`self.accounts`, then
`Account.objects.filter(q).order_by('asset__name', 'name', 'username')`. -/
def get_all_accounts (nodeAssets : String → List Nat) (assetsDb : List Asset)
    (accountsDb : List Account) (g : AssetPermission) : List Account :=
  let asset_ids := get_all_assets_flat nodeAssets g
  let q0 : Account → Bool := fun a => decide (a.asset_id ∈ asset_ids)
  let q : Account → Bool :=
    if AliasAccountALL ∈ g.accounts then q0
    else fun a => q0 a && decide (a.username ∈ g.accounts)
  List.insertionSort (account_le assetsDb) (accountsDb.filter q)

/-- `AssetPermission.get_all_accounts(flat=True)`: the same queryset projected
to ids by `values_list('id', flat=True)`. -/
def get_all_accounts_flat (nodeAssets : String → List Nat)
    (assetsDb : List Asset) (accountsDb : List Account)
    (g : AssetPermission) : List Nat :=
  (get_all_accounts nodeAssets assetsDb accountsDb g).map (fun a => a.id)

/-! ### Concrete fixtures used by witnesses and counterexamples -/

/-- A grant with an open validity window around the instants used below. -/
def gWindow : AssetPermission :=
  { name := "window", users := [1], user_groups := [5], assets := [1],
    nodes := ["n1"], accounts := [AliasAccountALL], date_start := 0,
    date_expired := 10, is_active := true }

/-- A grant valid early: window `(0, 5)`. -/
def gEarly : AssetPermission :=
  { name := "early", users := [], user_groups := [], assets := [],
    nodes := [], accounts := [], date_start := 0, date_expired := 5,
    is_active := true }

/-- A grant valid late: window `(5, 10)`. -/
def gLate : AssetPermission :=
  { name := "late", users := [], user_groups := [], assets := [],
    nodes := [], accounts := [], date_start := 5, date_expired := 10,
    is_active := true }

/-! ### Claim theorems -/

/-- Claim C1: for every grant `g` and time `t`, `is_valid(g, t)` is true iff
`g.is_active` is true and `g.date_start < t < g.date_expired`, strictly on
both bounds. -/
theorem C1_is_valid_iff (g : AssetPermission) (t : Int) :
    is_valid g t = true ↔
      (g.is_active = true ∧ g.date_start < t ∧ t < g.date_expired) := by
  by_cases h : g.date_expired > t ∧ t > g.date_start
  · simp only [is_valid, is_expired, if_pos h]
    constructor
    · intro hv
      rcases h with ⟨h1, h2⟩
      by_cases ha : g.is_active = true
      · exact ⟨ha, h2, h1⟩
      · simp [ha] at hv
    · intro ⟨ha, _, _⟩
      simp [ha]
  · simp only [is_valid, is_expired, if_neg h]
    constructor
    · intro hv
      simp at hv
    · intro ⟨_, h2, h1⟩
      exact absurd ⟨h1, h2⟩ h

/-- Claim C1 witness: the window grant is valid at `t = 3`. -/
theorem C1_witness : is_valid gWindow 3 = true :=
  (C1_is_valid_iff gWindow 3).mpr (by decide)

/-- Claim C2 counterexample: at `now` exactly equal to `date_start`, an active
grant is in neither `valid(now)` nor `invalid(now)`, so the two do not cover
the collection and `invalid` is not the complement of `valid`. -/
theorem C2_boundary_counterexample :
    validAt [gLate] 5 = [] ∧ invalid [gLate] 5 = [] ∧
      ([] : List AssetPermission) ≠ [gLate] := by
  refine ⟨by decide, by decide, by decide⟩

/-- Claim C2 (amended): for any fixed `now`, `valid(now)` and `invalid(now)`
are disjoint, `invalid(now)` holds exactly the grants with `is_active = false`
or `date_start > now` or `date_expired < now`, and a grant escapes both
filters exactly when it is active and `now` sits on one of its bounds
(`date_start = now ≤ date_expired` or `date_start ≤ now = date_expired`). -/
theorem C2_partition_amended (qs : List AssetPermission) (now : Int) :
    validAt qs now ∩ invalid qs now = [] ∧
    (∀ g, g ∈ invalid qs now ↔
      (g ∈ qs ∧ (g.is_active = false ∨ g.date_start > now ∨
        g.date_expired < now))) ∧
    (∀ g, (g ∈ validAt qs now ∨ g ∈ invalid qs now) ↔
      (g ∈ qs ∧ ¬(g.is_active = true ∧
        ((g.date_start = now ∧ now ≤ g.date_expired) ∨
          (g.date_expired = now ∧ g.date_start ≤ now))))) := by
  have hv : ∀ g, g ∈ validAt qs now ↔
      (g ∈ qs ∧ g.is_active = true ∧ g.date_start < now ∧
        now < g.date_expired) := by
    intro g
    simp only [validAt, valid, active, List.mem_filter, decide_eq_true_eq]
    constructor
    · intro ⟨⟨⟨hq, ha⟩, hs⟩, he⟩
      exact ⟨hq, ha, hs, he⟩
    · intro ⟨hq, ha, hs, he⟩
      exact ⟨⟨⟨hq, ha⟩, hs⟩, he⟩
  have hi : ∀ g, g ∈ invalid qs now ↔
      (g ∈ qs ∧ (g.is_active = false ∨ g.date_start > now ∨
        g.date_expired < now)) := by
    intro g
    simp only [invalid, List.mem_filter, Bool.or_eq_true, Bool.not_eq_true',
      decide_eq_true_eq]
    tauto
  refine ⟨?_, hi, ?_⟩
  · rw [List.inter_eq_nil_iff_disjoint]
    intro g hgv hgi
    rw [hv] at hgv
    rw [hi] at hgi
    rcases hgv with ⟨_, ha, hs, he⟩
    rcases hgi with ⟨_, h | h | h⟩
    · rw [ha] at h; cases h
    · omega
    · omega
  · intro g
    rw [hv, hi]
    by_cases hq : g ∈ qs
    · cases ha : g.is_active
      · simp [hq, ha]
      · simp [hq, ha]
        omega
    · simp [hq]

/-- Claim C2 (amended) witness: the partition facts instantiated on a
two-grant collection at `now = 3`. -/
theorem C2_witness :
    validAt [gEarly, gLate] 3 ∩ invalid [gEarly, gLate] 3 = [] ∧
      (gLate ∈ invalid [gEarly, gLate] 3 ↔
        (gLate ∈ [gEarly, gLate] ∧ (gLate.is_active = false ∨
          gLate.date_start > 3 ∨ gLate.date_expired < 3))) :=
  ⟨(C2_partition_amended [gEarly, gLate] 3).1,
    (C2_partition_amended [gEarly, gLate] 3).2.1 gLate⟩

/-- The ambient clock drifts between the two `timezone.now()` reads that
`valid` performs: the first read returns `1`, the second `6`. -/
def driftClock : Nat → Int := fun n => if n = 0 then 1 else 6

/-- Claim C6: refuted by the code — `valid()` calls `timezone.now()` once per
chained filter, so the two bound checks can use different instants.  With the
drifting clock the queryset judges both grants invalid, although freezing the
clock at the first read instant yields exactly `gEarly` and at the second
exactly `gLate`: no single captured `now` explains the answer. -/
theorem C6_valid_reads_clock_twice :
    valid [gEarly, gLate] driftClock = [] ∧
      validAt [gEarly, gLate] (driftClock 0) = [gEarly] ∧
      validAt [gEarly, gLate] (driftClock 1) = [gLate] := by
  refine ⟨by decide, by decide, by decide⟩

/-- Claim C4: `filter_by_accounts(S)` keeps exactly the grants whose account
list contains every requested name (subset containment), or contains the
wildcard alias. -/
theorem C4_filter_by_accounts_mem (qs : List AssetPermission)
    (S : List String) (g : AssetPermission) :
    g ∈ filter_by_accounts qs S ↔
      (g ∈ qs ∧ ((∀ s ∈ S, s ∈ g.accounts) ∨ AliasAccountALL ∈ g.accounts)) := by
  simp [filter_by_accounts, List.mem_filter, List.all_eq_true]

/-- Claim C4 witness: a wildcard grant passes the filter for a name absent
from its explicit list. -/
theorem C4_witness :
    gWindow ∈ filter_by_accounts [gEarly, gWindow] ["root"] :=
  (C4_filter_by_accounts_mem [gEarly, gWindow] ["root"] gWindow).mpr
    (by decide)

/-- Claim C8: `active().filter_by_accounts(X)` and
`filter_by_accounts(X).active()` return the same queryset, for every
collection and every requested name set. -/
theorem C8_filters_commute (qs : List AssetPermission) (X : List String) :
    filter_by_accounts (active qs) X = active (filter_by_accounts qs X) := by
  simp only [filter_by_accounts, active, List.filter_filter]
  congr 1
  funext g
  exact Bool.and_comm _ _

/-- Claim C8 witness: the two chainings agree on a concrete collection. -/
theorem C8_witness :
    filter_by_accounts (active [gEarly, gWindow, gLate]) ["root"] =
      active (filter_by_accounts [gEarly, gWindow, gLate] ["root"]) :=
  C8_filters_commute [gEarly, gWindow, gLate] ["root"]

/-- Claim C7: the flat asset resolution is the deduplicated union of the
directly referenced ids and the node-derived ids, and in particular contains
every directly referenced id. -/
theorem C7_expand_assets_superset (nodeAssets : String → List Nat)
    (g : AssetPermission) :
    get_all_assets_flat nodeAssets g =
      g.assets.toFinset ∪ (g.nodes.flatMap nodeAssets).toFinset ∧
    ∀ a ∈ g.assets, a ∈ get_all_assets_flat nodeAssets g := by
  refine ⟨rfl, fun a ha => ?_⟩
  simp only [get_all_assets_flat, Finset.mem_union, List.mem_toFinset]
  exact Or.inl ha

/-- The node store used by witnesses: node `n1` transitively holds asset `2`. -/
def wNodes : String → List Nat := fun k => if k = "n1" then [2] else []

/-- Claim C7 witness: the directly referenced asset `1` is in the resolved
set of the window grant, whose node also contributes asset `2`. -/
theorem C7_witness : 1 ∈ get_all_assets_flat wNodes gWindow :=
  (C7_expand_assets_superset wNodes gWindow).2 1 (by decide)

/-- Claim C5: `get_all_users` returns the union of the users directly
referenced and the members of referenced groups; the result has no
duplicates; and it is unchanged under any reordering of the grant's user and
group reference lists. -/
theorem C5_expand_users (usersDb : List User) (g : AssetPermission)
    (users2 groups2 : List Nat) (hu : users2.Perm g.users)
    (hg : groups2.Perm g.user_groups) :
    (∀ u, u ∈ get_all_users usersDb g ↔
      (u ∈ usersDb ∧ (u.id ∈ g.users ∨ ∃ gr ∈ u.groups, gr ∈ g.user_groups))) ∧
    (get_all_users usersDb g).Nodup ∧
    get_all_users usersDb { g with users := users2, user_groups := groups2 } =
      get_all_users usersDb g := by
  refine ⟨?_, ?_, ?_⟩
  · intro u
    simp only [get_all_users, UnionQuerySet, List.mem_dedup, List.mem_append,
      List.mem_filter, List.mem_flatMap, List.mem_map, decide_eq_true_eq]
    constructor
    · rintro (⟨hd, hid⟩ | ⟨v, hv, gr, ⟨hmem, hin⟩, rfl⟩)
      · exact ⟨hd, Or.inl hid⟩
      · exact ⟨hv, Or.inr ⟨gr, hmem, hin⟩⟩
    · rintro ⟨hd, hid | ⟨gr, hgr, hin⟩⟩
      · exact Or.inl ⟨hd, hid⟩
      · exact Or.inr ⟨u, hd, gr, ⟨hgr, hin⟩, rfl⟩
  · exact List.nodup_dedup _
  · have e1 : (fun u : User => decide (u.id ∈ users2)) =
        (fun u : User => decide (u.id ∈ g.users)) :=
      funext fun u => by simp [hu.mem_iff]
    have e2 : (fun gr : Nat => decide (gr ∈ groups2)) =
        (fun gr : Nat => decide (gr ∈ g.user_groups)) :=
      funext fun gr => by simp [hg.mem_iff]
    simp only [get_all_users, UnionQuerySet]
    rw [e1, e2]

/-- The user store used by witnesses: `u1`, `u2` in group `5`, `u3` both in
group `5` and directly referenced. -/
def wUsers : List User := [⟨1, [5]⟩, ⟨2, [5]⟩, ⟨3, [5, 6]⟩]

/-- Claim C5 witness: on the concrete store, the window grant (direct user
`1`, group `5`) resolves to `{u1, u2, u3}` with no duplicates, and reversing
its reference lists changes nothing. -/
theorem C5_witness :
    (get_all_users wUsers gWindow).Nodup ∧
      get_all_users wUsers
        { gWindow with users := [1], user_groups := [5] } =
        get_all_users wUsers gWindow :=
  ⟨(C5_expand_users wUsers gWindow [1] [5] (by decide) (by decide)).2.1,
    (C5_expand_users wUsers gWindow [1] [5] (by decide) (by decide)).2.2⟩

/-- Claim C3: `get_all_accounts` returns exactly the stored accounts whose
asset lies in the resolved asset set and whose username is licensed by the
grant (wildcard, or listed); each at most as often as stored (so exactly once
over a duplicate-free store); sorted by `(asset.name, name, username)`; and
the flat form is the id projection of the same rows. -/
theorem C3_resolve_accounts (nodeAssets : String → List Nat)
    (assetsDb : List Asset) (accountsDb : List Account)
    (g : AssetPermission) :
    (∀ a, a ∈ get_all_accounts nodeAssets assetsDb accountsDb g ↔
      (a ∈ accountsDb ∧ a.asset_id ∈ get_all_assets_flat nodeAssets g ∧
        (AliasAccountALL ∈ g.accounts ∨ a.username ∈ g.accounts))) ∧
    (accountsDb.Nodup →
      (get_all_accounts nodeAssets assetsDb accountsDb g).Nodup) ∧
    List.Sorted (account_le assetsDb)
      (get_all_accounts nodeAssets assetsDb accountsDb g) ∧
    get_all_accounts_flat nodeAssets assetsDb accountsDb g =
      (get_all_accounts nodeAssets assetsDb accountsDb g).map (fun a => a.id) := by
  refine ⟨?_, ?_, ?_, rfl⟩
  · intro a
    by_cases hall : AliasAccountALL ∈ g.accounts
    · simp [get_all_accounts, hall, List.mem_insertionSort, List.mem_filter]
    · simp [get_all_accounts, hall, List.mem_insertionSort, List.mem_filter,
        and_assoc]
  · intro hnd
    exact ((List.perm_insertionSort _ _).nodup_iff).mpr (hnd.filter _)
  · exact List.sorted_insertionSort _ _

/-- The asset store used by witnesses. -/
def wAssets : List Asset := [⟨1, "web"⟩, ⟨2, "db"⟩]

/-- The account store used by witnesses. -/
def wAccounts : List Account :=
  [⟨10, 2, "root", "root"⟩, ⟨11, 1, "admin", "admin"⟩,
    ⟨12, 1, "guest", "guest"⟩]

/-- Claim C3 witness: on the concrete stores the wildcard window grant's
resolution is duplicate-free and contains the account on the node-derived
asset. -/
theorem C3_witness :
    (get_all_accounts wNodes wAssets wAccounts gWindow).Nodup ∧
      ((⟨10, 2, "root", "root"⟩ : Account) ∈
        get_all_accounts wNodes wAssets wAccounts gWindow) :=
  ⟨(C3_resolve_accounts wNodes wAssets wAccounts gWindow).2.1 (by decide),
    ((C3_resolve_accounts wNodes wAssets wAccounts gWindow).1 _).mpr
      (by decide)⟩

/-- Claim C9: a grant whose resolved asset set is empty, or whose explicit
account-name list is empty, resolves to no accounts (and no error: the
functions are total). -/
theorem C9_empty_spec_empty_result (nodeAssets : String → List Nat)
    (assetsDb : List Asset) (accountsDb : List Account) (g : AssetPermission)
    (h : get_all_assets_flat nodeAssets g = ∅ ∨ g.accounts = []) :
    get_all_accounts nodeAssets assetsDb accountsDb g = [] ∧
    get_all_accounts_flat nodeAssets assetsDb accountsDb g = [] := by
  have hmain : get_all_accounts nodeAssets assetsDb accountsDb g = [] := by
    rcases h with h | h
    · by_cases hall : AliasAccountALL ∈ g.accounts <;>
        simp [get_all_accounts, h, hall, List.insertionSort]
    · simp [get_all_accounts, h, List.insertionSort]
  exact ⟨hmain, by simp [get_all_accounts_flat, hmain]⟩

/-- A grant with a non-empty asset set but an empty (non-wildcard) account
list. -/
def wGrantEmptyNames : AssetPermission :=
  { name := "emptynames", users := [], user_groups := [], assets := [1],
    nodes := [], accounts := [], date_start := 0, date_expired := 10,
    is_active := true }

/-- Claim C9 witness: the empty-name-list grant resolves to no accounts even
though the store holds accounts on its asset. -/
theorem C9_witness :
    get_all_accounts wNodes wAssets wAccounts wGrantEmptyNames = [] :=
  (C9_empty_spec_empty_result wNodes wAssets wAccounts wGrantEmptyNames
    (Or.inr rfl)).1

/-- Claim C10: when the wildcard alias occurs anywhere in the grant's account
list, the explicit names are ignored: resolution coincides with that of the
same grant carrying the pure wildcard specification. -/
theorem C10_wildcard_overrides (nodeAssets : String → List Nat)
    (assetsDb : List Asset) (accountsDb : List Account) (g : AssetPermission)
    (h : AliasAccountALL ∈ g.accounts) :
    get_all_accounts nodeAssets assetsDb accountsDb g =
      get_all_accounts nodeAssets assetsDb accountsDb
        { g with accounts := [AliasAccountALL] } ∧
    get_all_accounts_flat nodeAssets assetsDb accountsDb g =
      get_all_accounts_flat nodeAssets assetsDb accountsDb
        { g with accounts := [AliasAccountALL] } := by
  have hmain : get_all_accounts nodeAssets assetsDb accountsDb g =
      get_all_accounts nodeAssets assetsDb accountsDb
        { g with accounts := [AliasAccountALL] } := by
    simp only [get_all_accounts, h, if_pos, List.mem_singleton]
    rfl
  exact ⟨hmain, by simp [get_all_accounts_flat, hmain]⟩

/-- A grant mixing explicit names with the wildcard alias. -/
def wGrantMixed : AssetPermission :=
  { name := "mixed", users := [], user_groups := [], assets := [1],
    nodes := [], accounts := ["root", AliasAccountALL], date_start := 0,
    date_expired := 10, is_active := true }

/-- Claim C10 witness: the mixed grant resolves exactly as its pure-wildcard
variant. -/
theorem C10_witness :
    get_all_accounts wNodes wAssets wAccounts wGrantMixed =
      get_all_accounts wNodes wAssets wAccounts
        { wGrantMixed with accounts := [AliasAccountALL] } :=
  (C10_wildcard_overrides wNodes wAssets wAccounts wGrantMixed (by decide)).1

end JumpServer
